import Mathlib

/-!
Verification of the model-selection and recognition layer of the
`udacity-ai-p4-recognizer` repository (`my_model_selectors.py`,
`my_recognizer.py`).

Shallow embedding choices:
* An observation sequence is a list of feature vectors (`Frame := List ℚ`);
  a concatenated view is a pair `(X, lengths)` (`Obs`).
* The external numerical fitter (`hmmlearn.GaussianHMM`) is an abstract
  environment `FitEnv`: `fitOk` says whether `GaussianHMM(...).fit` succeeds
  on given data, state count and seed; `scoreVal` is `model.score`
  (`none` models a raised exception); `n_features` reads the model attribute;
  `log` models `np.log` on natural numbers.
* Since fitting is deterministic in `(X, lengths, num_states, random_state)`
  (fixed seed), a fitted model is identified with its fit inputs
  (structure `HModel`); `scoreVal` and `n_features` are functions of the model.
* Log-likelihoods are rationals; the `float('-inf')` / `float('inf')`
  sentinels are `⊥ : WithBot ℚ` and `⊤ : WithTop ℚ`.
* Python exceptions that the source lets escape are modelled with
  `Except String`; exceptions caught by the source's `try/except` blocks are
  the `none`/skip branches of the translated code.
-/

/-- A feature vector (one observation frame). -/
abbrev Frame : Type := List ℚ

/-- One observation sequence: an ordered list of frames. -/
abbrev ObsSeq : Type := List Frame

/-- A concatenated view `(X, lengths)` of a set of sequences. -/
abbrev Obs : Type := List Frame × List ℕ

/-- A fitted model, identified with the inputs of the deterministic fit call
that produced it: training view, state count and random seed. -/
structure HModel where
  X : List Frame
  lengths : List ℕ
  numStates : ℕ
  seed : ℕ
deriving DecidableEq, Repr

/-- The abstract external fitter/scorer environment (`hmmlearn` and `numpy`). -/
structure FitEnv where
  /-- Does `GaussianHMM(n_components, "diag", n_iter=1000, random_state).fit (X, lengths)` succeed? -/
  fitOk : Obs → ℕ → ℕ → Bool
  /-- `model.score(X, lengths)`: `none` models a raised exception. -/
  scoreVal : HModel → Obs → Option ℚ
  /-- `model.n_features` attribute. -/
  n_features : HModel → ℕ
  /-- `np.log` on a natural number. -/
  log : ℕ → ℚ

/-- The state of a constructed `ModelSelector` (fields set by `__init__`). -/
structure Selector where
  /-- `self.words = all_word_sequences` (dict in insertion order). -/
  words : List (String × List ObsSeq)
  /-- `self.hwords = all_word_Xlengths` (dict in insertion order). -/
  hwords : List (String × Obs)
  /-- `self.sequences = all_word_sequences[this_word]`. -/
  sequences : List ObsSeq
  /-- `self.X` (first component of `all_word_Xlengths[this_word]`). -/
  X : List Frame
  /-- `self.lengths` (second component of `all_word_Xlengths[this_word]`). -/
  lengths : List ℕ
  this_word : String
  n_constant : ℕ
  min_n_components : ℕ
  max_n_components : ℕ
  random_state : ℕ
  verbose : Bool
deriving DecidableEq, Repr

/-- `ModelSelector.__init__`: derive `sequences`, `X`, `lengths` from the two
dict arguments; a missing `this_word` key raises (`none`). -/
def ModelSelector.init (all_word_sequences : List (String × List ObsSeq))
    (all_word_Xlengths : List (String × Obs)) (this_word : String)
    (n_constant : ℕ := 3) (min_n_components : ℕ := 2) (max_n_components : ℕ := 10)
    (random_state : ℕ := 14) (verbose : Bool := false) : Option Selector :=
  match all_word_sequences.lookup this_word, all_word_Xlengths.lookup this_word with
  | some seqs, some (x, ls) =>
      some ⟨all_word_sequences, all_word_Xlengths, seqs, x, ls, this_word,
            n_constant, min_n_components, max_n_components, random_state, verbose⟩
  | _, _ => none

/-- `ModelSelector.base_model(num_states)`: fit a `GaussianHMM` on
`(self.X, self.lengths)`; any exception is caught and `None` is returned. -/
def ModelSelector.base_model (env : FitEnv) (s : Selector) (num_states : ℕ) :
    Option HModel :=
  if env.fitOk (s.X, s.lengths) num_states s.random_state then
    some ⟨s.X, s.lengths, num_states, s.random_state⟩
  else
    none

/-- `range(self.min_n_components, self.max_n_components + 1)`. -/
def Selector.stateRange (s : Selector) : List ℕ :=
  List.range' s.min_n_components (s.max_n_components + 1 - s.min_n_components)

/-- `SelectorConstant.select()`: `base_model(self.n_constant)`. -/
def SelectorConstant.select (env : FitEnv) (s : Selector) : Option HModel :=
  ModelSelector.base_model env s s.n_constant

/-- One BIC candidate: fit `base_model(k)`, score it on the training data
(`None` model or failed score means the candidate is skipped), and compute
`bic = -2 * logL + p * log N` with `p = k^2 + 2*k*n_features - 1` and
`N = sum(self.lengths)`. -/
def SelectorBIC.candidate (env : FitEnv) (s : Selector) (k : ℕ) :
    Option (HModel × ℚ) :=
  match ModelSelector.base_model env s k with
  | none => none
  | some m =>
    match env.scoreVal m (s.X, s.lengths) with
    | none => none
    | some logL =>
      let N : ℕ := s.lengths.sum
      let p : ℤ := (k : ℤ) ^ 2 + 2 * (k : ℤ) * (env.n_features m : ℤ) - 1
      some (m, -2 * logL + (p : ℚ) * env.log N)

/-- The `for num_states in range(...)` loop of `SelectorBIC.select`,
tracking `best_bic_score` (initially `float('inf')`) and `best_model`. -/
def SelectorBIC.loop (env : FitEnv) (s : Selector) :
    WithTop ℚ → Option HModel → List ℕ → Option HModel
  | _, best_model, [] => best_model
  | best_bic_score, best_model, k :: rest =>
    match SelectorBIC.candidate env s k with
    | none => SelectorBIC.loop env s best_bic_score best_model rest
    | some (m, b) =>
      if (b : WithTop ℚ) < best_bic_score then
        SelectorBIC.loop env s (b : WithTop ℚ) (some m) rest
      else
        SelectorBIC.loop env s best_bic_score best_model rest

/-- `SelectorBIC.select()`. -/
def SelectorBIC.select (env : FitEnv) (s : Selector) : Option HModel :=
  SelectorBIC.loop env s ⊤ (ModelSelector.base_model env s s.n_constant)
    s.stateRange

/-- The anti-likelihood accumulation loop of `SelectorDIC.select`:
`for word in self.words: if word != self.this_word: X, lengths = self.hwords[word]; try: ...`.
The dict lookup `self.hwords[word]` is outside the `try` block, so a missing
key raises a `KeyError` that escapes `select` (the `.error` branch). -/
def SelectorDIC.anti (env : FitEnv) (s : Selector) (m : HModel) :
    List (String × List ObsSeq) → Except String (ℚ × ℕ)
  | [] => Except.ok (0, 0)
  | (word, _) :: rest =>
    if word = s.this_word then
      SelectorDIC.anti env s m rest
    else
      match s.hwords.lookup word with
      | none => Except.error "KeyError"
      | some xl =>
        match env.scoreVal m xl with
        | none => SelectorDIC.anti env s m rest
        | some q =>
          (SelectorDIC.anti env s m rest).map (fun p => (p.1 + q, p.2 + 1))

/-- One DIC candidate: fit `base_model(k)` and score it on the item's own
data (skip the candidate if either fails), then run the anti-likelihood loop;
`dic = logL - sum/num` when `num != 0`, else `float('-inf')`. -/
def SelectorDIC.candidate (env : FitEnv) (s : Selector) (k : ℕ) :
    Except String (Option (HModel × WithBot ℚ)) :=
  match ModelSelector.base_model env s k with
  | none => Except.ok none
  | some m =>
    match env.scoreVal m (s.X, s.lengths) with
    | none => Except.ok none
    | some logL =>
      (SelectorDIC.anti env s m s.words).map (fun p =>
        some (m, if p.2 ≠ 0 then ((logL - p.1 / (p.2 : ℚ) : ℚ) : WithBot ℚ) else ⊥))

/-- The `for num_states in range(...)` loop of `SelectorDIC.select`,
tracking `best_dic_score` (initially `float('-inf')`) and `best_model`. -/
def SelectorDIC.loop (env : FitEnv) (s : Selector) :
    WithBot ℚ → Option HModel → List ℕ → Except String (Option HModel)
  | _, best_model, [] => Except.ok best_model
  | best_dic_score, best_model, k :: rest =>
    match SelectorDIC.candidate env s k with
    | Except.error e => Except.error e
    | Except.ok none => SelectorDIC.loop env s best_dic_score best_model rest
    | Except.ok (some (m, d)) =>
      if best_dic_score < d then
        SelectorDIC.loop env s d (some m) rest
      else
        SelectorDIC.loop env s best_dic_score best_model rest

/-- `SelectorDIC.select()`. -/
def SelectorDIC.select (env : FitEnv) (s : Selector) :
    Except String (Option HModel) :=
  SelectorDIC.loop env s ⊥ (ModelSelector.base_model env s s.n_constant)
    s.stateRange

/-- Modelled from the spec: the fold utility `combine_sequences` from
`asl_utils` (not under `src/`): "concatenate(index_subset, sequences) ->
(X, lengths)" — concatenate the sequences referenced by an index list into a
new `(X, lengths)` view; an out-of-range index raises. -/
def combine_sequences (split_index_list : List ℕ) (sequences : List ObsSeq) :
    Except String Obs :=
  match split_index_list with
  | [] => Except.ok ([], [])
  | i :: rest =>
    match sequences.get? i with
    | none => Except.error "IndexError"
    | some sq =>
      (combine_sequences rest sequences).map (fun xl => (sq ++ xl.1, sq.length :: xl.2))

/-- One train/test index pair of `KFold(n_splits).split`: the test fold is
the contiguous block `[start, start+sz)`, the train fold the ascending
complement in `range n`. -/
def kfPair (n start sz : ℕ) : List ℕ × List ℕ :=
  ((List.range n).filter (fun j => decide (j < start) || decide (start + sz ≤ j)),
   List.range' start sz)

/-- `list(KFold(n_splits=3).split(sequences))` for `n` samples (no shuffle):
the first `n % 3` folds have size `n / 3 + 1`, the rest size `n / 3`, and the
test blocks are consecutive. -/
def kf_split (n : ℕ) : List (List ℕ × List ℕ) :=
  let q := n / 3
  let s1 := q + (if 0 < n % 3 then 1 else 0)
  let s2 := q + (if 1 < n % 3 then 1 else 0)
  [kfPair n 0 s1, kfPair n s1 s2, kfPair n (s1 + s2) q]

/-- The inner `for train_index, test_index in kf.split(...)` loop of
`SelectorCV.select` for one state count: combine the fold views (an index
error escapes with the selector state as it then stands), temporarily swap
`(self.X, self.lengths)` for the training fold around the `base_model` call
and restore it, then try to score the fold model on the held-out fold,
accumulating `sum_logL` and `num_tries`. Returns the selector state as left
by the loop together with the accumulated pair. -/
def SelectorCV.folds (env : FitEnv) (combine : List ℕ → List ObsSeq → Except String Obs)
    (num_states : ℕ) :
    Selector → ℚ → ℕ → List (List ℕ × List ℕ) → Selector × Except String (ℚ × ℕ)
  | s, sum_logL, num_tries, [] => (s, Except.ok (sum_logL, num_tries))
  | s, sum_logL, num_tries, (train_index, test_index) :: rest =>
    match combine train_index s.sequences with
    | Except.error e => (s, Except.error e)
    | Except.ok xtr =>
      match combine test_index s.sequences with
      | Except.error e => (s, Except.error e)
      | Except.ok xte =>
        let backup_X := s.X
        let backup_lengths := s.lengths
        let s1 : Selector := { s with X := xtr.1, lengths := xtr.2 }
        let train_model := ModelSelector.base_model env s1 num_states
        let s2 : Selector := { s1 with X := backup_X, lengths := backup_lengths }
        match train_model with
        | none => SelectorCV.folds env combine num_states s2 sum_logL num_tries rest
        | some m =>
          match env.scoreVal m xte with
          | none => SelectorCV.folds env combine num_states s2 sum_logL num_tries rest
          | some q =>
            SelectorCV.folds env combine num_states s2 (sum_logL + q) (num_tries + 1) rest

/-- `avg_logL`: the average held-out log-likelihood over the folds that
succeeded, `float('-inf')` when no fold succeeded (`num_tries == 0`). -/
def SelectorCV.avgLogL (sum_logL : ℚ) (num_tries : ℕ) : WithBot ℚ :=
  if 0 < num_tries then ((sum_logL / (num_tries : ℚ) : ℚ) : WithBot ℚ) else ⊥

/-- The `for num_states in range(...)` loop of `SelectorCV.select`: run the
fold loop, average the held-out log-likelihoods (`float('-inf')` when no
fold succeeded), and on improvement refit `base_model(num_states)` on the
restored full training view. -/
def SelectorCV.loop (env : FitEnv) (combine : List ℕ → List ObsSeq → Except String Obs)
    (splits : List (List ℕ × List ℕ)) :
    Selector → WithBot ℚ → Option HModel → List ℕ →
      Except String (Option HModel) × Selector
  | s, _, best_model, [] => (Except.ok best_model, s)
  | s, best_logL, best_model, num_states :: rest =>
    match SelectorCV.folds env combine num_states s 0 0 splits with
    | (s', Except.error e) => (Except.error e, s')
    | (s', Except.ok (sum_logL, num_tries)) =>
      if best_logL < SelectorCV.avgLogL sum_logL num_tries then
        SelectorCV.loop env combine splits s' (SelectorCV.avgLogL sum_logL num_tries)
          (ModelSelector.base_model env s' num_states) rest
      else
        SelectorCV.loop env combine splits s' best_logL best_model rest

/-- `SelectorCV.select()`: fall back to `base_model(n_constant)` when there
are fewer sequences than the fold count 3; otherwise search the state range
by 3-fold cross-validated held-out likelihood. The second component is the
selector state after the call (the source mutates and restores
`self.X, self.lengths`). -/
def SelectorCV.select (env : FitEnv)
    (combine : List ℕ → List ObsSeq → Except String Obs) (s : Selector) :
    Except String (Option HModel) × Selector :=
  let best_model := ModelSelector.base_model env s s.n_constant
  if s.sequences.length < 3 then
    (Except.ok best_model, s)
  else
    SelectorCV.loop env combine (kf_split s.sequences.length) s ⊥ best_model
      s.stateRange

/-- The recorded score of one model on one test item:
`model.score(X, lengths)` with a raised exception replaced by
`float('-inf')`. -/
def scoreOrBot (env : FitEnv) (m : HModel) (obs : Obs) : WithBot ℚ :=
  match env.scoreVal m obs with
  | some q => (q : WithBot ℚ)
  | none => ⊥

/-- The `for word, model in models.items()` loop of `recognize` for one test
item: build the `words_logL` table in iteration order and track
`best_logL` (initially `float('-inf')`) and `best_word` (initially `""`). -/
def recognizeLoop (env : FitEnv) (obs : Obs) :
    List (String × WithBot ℚ) → WithBot ℚ → String → List (String × HModel) →
      List (String × WithBot ℚ) × String
  | words_logL, _, best_word, [] => (words_logL, best_word)
  | words_logL, best_logL, best_word, (word, model) :: rest =>
    let logL := scoreOrBot env model obs
    if best_logL < logL then
      recognizeLoop env obs (words_logL ++ [(word, logL)]) logL word rest
    else
      recognizeLoop env obs (words_logL ++ [(word, logL)]) best_logL best_word rest

/-- The body of `recognize` for one test item. -/
def recognizeOne (env : FitEnv) (models : List (String × HModel)) (obs : Obs) :
    List (String × WithBot ℚ) × String :=
  recognizeLoop env obs [] ⊥ "" models

/-- `recognize(models, test_set)`: for each test item in order, the score
table over every model and the best-guess word; the two output lists are
parallel to the test set. -/
def recognize (env : FitEnv) (models : List (String × HModel))
    (test_set : List Obs) :
    List (List (String × WithBot ℚ)) × List String :=
  (test_set.map (fun obs => (recognizeOne env models obs).1),
   test_set.map (fun obs => (recognizeOne env models obs).2))

/-! ### Helper lemmas -/

/-- A model produced by `base_model` carries the selector's training view,
the requested state count and the selector's seed. -/
lemma ModelSelector.base_model_shape (env : FitEnv) (s : Selector) (k : ℕ) (m : HModel)
    (h : ModelSelector.base_model env s k = some m) :
    m.X = s.X ∧ m.lengths = s.lengths ∧ m.numStates = k ∧ m.seed = s.random_state := by
  unfold ModelSelector.base_model at h
  split at h
  · cases h
    exact ⟨rfl, rfl, rfl, rfl⟩
  · cases h

/-- The fold loop of `SelectorCV` hands back the selector state it received:
every temporary swap of `(self.X, self.lengths)` is restored, and the raising
paths (the combine calls) come before the swap. -/
lemma SelectorCV.folds_fst (env : FitEnv)
    (combine : List ℕ → List ObsSeq → Except String Obs) (k : ℕ) :
    ∀ (s : Selector) (a : ℚ) (c : ℕ) (splits : List (List ℕ × List ℕ)),
      (SelectorCV.folds env combine k s a c splits).1 = s
  | _, _, _, [] => rfl
  | s, a, c, (tri, tei) :: rest => by
    simp only [SelectorCV.folds]
    split
    · rfl
    · split
      · rfl
      · split
        · exact SelectorCV.folds_fst env combine k _ a c rest
        · split
          · exact SelectorCV.folds_fst env combine k _ a c rest
          · exact SelectorCV.folds_fst env combine k _ _ _ rest

/-- The state-count loop of `SelectorCV` hands back the selector state it
received. -/
lemma SelectorCV.loop_snd (env : FitEnv)
    (combine : List ℕ → List ObsSeq → Except String Obs)
    (splits : List (List ℕ × List ℕ)) :
    ∀ (ks : List ℕ) (s : Selector) (best : WithBot ℚ) (bm : Option HModel),
      (SelectorCV.loop env combine splits s best bm ks).2 = s
  | [], _, _, _ => rfl
  | k :: rest, s, best, bm => by
    simp only [SelectorCV.loop]
    split
    next s' e heq =>
      have hs : s' = s := by
        have h := SelectorCV.folds_fst env combine k s 0 0 splits
        rw [heq] at h
        exact h
      exact hs
    next s' sl nt heq =>
      have hs : s' = s := by
        have h := SelectorCV.folds_fst env combine k s 0 0 splits
        rw [heq] at h
        exact h
      subst hs
      split
      · exact SelectorCV.loop_snd env combine splits rest _ _ _
      · exact SelectorCV.loop_snd env combine splits rest _ _ _

/-- Every index produced by `kf_split` on `n ≥ 3` samples is in range. -/
lemma kf_split_valid (n : ℕ) (hn : 3 ≤ n) :
    ∀ p ∈ kf_split n, (∀ i ∈ p.1, i < n) ∧ (∀ i ∈ p.2, i < n) := by
  intro p hp
  have htr : ∀ start sz, ∀ i ∈ (kfPair n start sz).1, i < n := by
    intro start sz i hi
    simp only [kfPair, List.mem_filter, List.mem_range] at hi
    exact hi.1
  have hte : ∀ start sz, start + sz ≤ n → ∀ i ∈ (kfPair n start sz).2, i < n := by
    intro start sz hle i hi
    simp only [kfPair] at hi
    have := List.mem_range'_1.mp hi
    omega
  simp only [kf_split, List.mem_cons, List.not_mem_nil, or_false] at hp
  rcases hp with h | h | h <;> subst h <;>
    refine ⟨htr _ _, hte _ _ ?_⟩ <;> split_ifs <;> omega

/-- `combine_sequences` succeeds on in-range indices. -/
lemma combine_sequences_ok :
    ∀ (idx : List ℕ) (seqs : List ObsSeq), (∀ i ∈ idx, i < seqs.length) →
      ∃ v, combine_sequences idx seqs = Except.ok v
  | [], _, _ => ⟨([], []), rfl⟩
  | i :: rest, seqs, h => by
    have hi : i < seqs.length := h i (List.mem_cons_self i rest)
    obtain ⟨v, hv⟩ :=
      combine_sequences_ok rest seqs (fun j hj => h j (List.mem_cons_of_mem i hj))
    refine ⟨(seqs.get ⟨i, hi⟩ ++ v.1, (seqs.get ⟨i, hi⟩).length :: v.2), ?_⟩
    simp only [combine_sequences, List.get?_eq_get hi, hv, Except.map]

/-- With the real fold utility and in-range indices, the fold loop of
`SelectorCV` never raises. -/
lemma SelectorCV.folds_ok (env : FitEnv) (k : ℕ) :
    ∀ (splits : List (List ℕ × List ℕ)) (s : Selector) (a : ℚ) (c : ℕ),
      (∀ p ∈ splits, (∀ i ∈ p.1, i < s.sequences.length) ∧
        (∀ i ∈ p.2, i < s.sequences.length)) →
      ∃ v, (SelectorCV.folds env combine_sequences k s a c splits).2 = Except.ok v
  | [], _, a, c, _ => ⟨(a, c), rfl⟩
  | (tri, tei) :: rest, s, a, c, hv => by
    obtain ⟨vtr, htr⟩ :=
      combine_sequences_ok tri s.sequences (hv (tri, tei) (List.mem_cons_self _ _)).1
    obtain ⟨vte, hte⟩ :=
      combine_sequences_ok tei s.sequences (hv (tri, tei) (List.mem_cons_self _ _)).2
    have hrest : ∀ p ∈ rest, (∀ i ∈ p.1, i < s.sequences.length) ∧
        (∀ i ∈ p.2, i < s.sequences.length) :=
      fun p hp => hv p (List.mem_cons_of_mem _ hp)
    simp only [SelectorCV.folds, htr, hte]
    split
    · exact SelectorCV.folds_ok env k rest _ a c hrest
    · split
      · exact SelectorCV.folds_ok env k rest _ a c hrest
      · exact SelectorCV.folds_ok env k rest _ _ _ hrest

/-- With the real fold utility and in-range indices, the state-count loop of
`SelectorCV` never raises. -/
lemma SelectorCV.loop_ok (env : FitEnv) (splits : List (List ℕ × List ℕ)) :
    ∀ (ks : List ℕ) (s : Selector) (best : WithBot ℚ) (bm : Option HModel),
      (∀ p ∈ splits, (∀ i ∈ p.1, i < s.sequences.length) ∧
        (∀ i ∈ p.2, i < s.sequences.length)) →
      ∃ r, (SelectorCV.loop env combine_sequences splits s best bm ks).1 = Except.ok r
  | [], _, _, bm, _ => ⟨bm, rfl⟩
  | k :: rest, s, best, bm, hv => by
    simp only [SelectorCV.loop]
    split
    next s' e heq =>
      obtain ⟨v, hok⟩ := SelectorCV.folds_ok env k splits s 0 0 hv
      rw [heq] at hok
      exact absurd hok (by simp)
    next s' sl nt heq =>
      have hs : s' = s := by
        have h := SelectorCV.folds_fst env combine_sequences k s 0 0 splits
        rw [heq] at h
        exact h
      subst hs
      split
      · exact SelectorCV.loop_ok env splits rest _ _ _ hv
      · exact SelectorCV.loop_ok env splits rest _ _ _ hv

/-- Every model the state-count loop of `SelectorCV` can return was fit on the
selector's own (restored) full training view. -/
lemma SelectorCV.loop_models (env : FitEnv)
    (combine : List ℕ → List ObsSeq → Except String Obs)
    (splits : List (List ℕ × List ℕ)) :
    ∀ (ks : List ℕ) (s : Selector) (best : WithBot ℚ) (bm : Option HModel),
      (∀ m, bm = some m → m.X = s.X ∧ m.lengths = s.lengths ∧ m.seed = s.random_state) →
      ∀ r m, (SelectorCV.loop env combine splits s best bm ks).1 = Except.ok r →
        r = some m → m.X = s.X ∧ m.lengths = s.lengths ∧ m.seed = s.random_state
  | [], _, _, bm, hbm => by
    intro r m hr hm
    cases hr
    exact hbm m hm
  | k :: rest, s, best, bm, hbm => by
    intro r m hr hm
    rw [SelectorCV.loop] at hr
    revert hr
    split
    next s' e heq =>
      intro hr
      cases hr
    next s' sl nt heq =>
      intro hr
      have hs : s' = s := by
        have h := SelectorCV.folds_fst env combine k s 0 0 splits
        rw [heq] at h
        exact h
      subst hs
      split at hr
      · refine SelectorCV.loop_models env combine splits rest s' _ _ ?_ r m hr hm
        intro m' hm'
        have h := ModelSelector.base_model_shape env s' k m' hm'
        exact ⟨h.1, h.2.1, h.2.2.2⟩
      · exact SelectorCV.loop_models env combine splits rest s' _ _ hbm r m hr hm

lemma bicLoop_spec (env : FitEnv) (s : Selector) :
    ∀ (l : List ℕ) (best : WithTop ℚ) (bm : Option HModel),
      (SelectorBIC.loop env s best bm l = bm ∧
        ∀ k ∈ l, ∀ m b, SelectorBIC.candidate env s k = some (m, b) →
          best ≤ (b : WithTop ℚ))
      ∨ (∃ k0 m0 b0, k0 ∈ l ∧ SelectorBIC.candidate env s k0 = some (m0, b0) ∧
          SelectorBIC.loop env s best bm l = some m0 ∧
          (b0 : WithTop ℚ) < best ∧
          ∀ k ∈ l, ∀ m b, SelectorBIC.candidate env s k = some (m, b) → b0 ≤ b)
  | [], best, bm => Or.inl ⟨rfl, by simp⟩
  | k :: rest, best, bm => by
    cases hc : SelectorBIC.candidate env s k with
    | none =>
      rcases bicLoop_spec env s rest best bm with ⟨h1, h2⟩ |
        ⟨k0, m0, b0, hk0, hc0, hres, hlt0, hbd⟩
      · left
        refine ⟨?_, ?_⟩
        · simp only [SelectorBIC.loop, hc]
          exact h1
        · intro k' hk' m b hcb
          rcases List.mem_cons.mp hk' with rfl | hk'
          · rw [hc] at hcb
            cases hcb
          · exact h2 k' hk' m b hcb
      · right
        refine ⟨k0, m0, b0, List.mem_cons_of_mem _ hk0, hc0, ?_, hlt0, ?_⟩
        · simp only [SelectorBIC.loop, hc]
          exact hres
        · intro k' hk' m b hcb
          rcases List.mem_cons.mp hk' with rfl | hk'
          · rw [hc] at hcb
            cases hcb
          · exact hbd k' hk' m b hcb
    | some p =>
      obtain ⟨m, b⟩ := p
      by_cases hlt : (b : WithTop ℚ) < best
      · rcases bicLoop_spec env s rest (b : WithTop ℚ) (some m) with ⟨h1, h2⟩ |
          ⟨k0, m0, b0, hk0, hc0, hres, hlt0, hbd⟩
        · right
          refine ⟨k, m, b, List.mem_cons_self _ _, hc, ?_, hlt, ?_⟩
          · simp only [SelectorBIC.loop, hc, if_pos hlt]
            exact h1
          · intro k' hk' m' b' hcb
            rcases List.mem_cons.mp hk' with rfl | hk'
            · rw [hc] at hcb
              cases hcb
              exact le_refl _
            · exact WithTop.coe_le_coe.mp (h2 k' hk' m' b' hcb)
        · right
          refine ⟨k0, m0, b0, List.mem_cons_of_mem _ hk0, hc0, ?_, lt_trans hlt0 hlt, ?_⟩
          · simp only [SelectorBIC.loop, hc, if_pos hlt]
            exact hres
          · intro k' hk' m' b' hcb
            rcases List.mem_cons.mp hk' with rfl | hk'
            · rw [hc] at hcb
              cases hcb
              exact le_of_lt (WithTop.coe_lt_coe.mp hlt0)
            · exact hbd k' hk' m' b' hcb
      · rcases bicLoop_spec env s rest best bm with ⟨h1, h2⟩ |
          ⟨k0, m0, b0, hk0, hc0, hres, hlt0, hbd⟩
        · left
          refine ⟨?_, ?_⟩
          · simp only [SelectorBIC.loop, hc, if_neg hlt]
            exact h1
          · intro k' hk' m' b' hcb
            rcases List.mem_cons.mp hk' with rfl | hk'
            · rw [hc] at hcb
              cases hcb
              exact not_lt.mp hlt
            · exact h2 k' hk' m' b' hcb
        · right
          refine ⟨k0, m0, b0, List.mem_cons_of_mem _ hk0, hc0, ?_, hlt0, ?_⟩
          · simp only [SelectorBIC.loop, hc, if_neg hlt]
            exact hres
          · intro k' hk' m' b' hcb
            rcases List.mem_cons.mp hk' with rfl | hk'
            · rw [hc] at hcb
              cases hcb
              exact le_of_lt (WithTop.coe_lt_coe.mp (lt_of_lt_of_le hlt0 (not_lt.mp hlt)))
            · exact hbd k' hk' m' b' hcb

lemma SelectorDIC.anti_ok (env : FitEnv) (s : Selector) (m : HModel) :
    ∀ (ws : List (String × List ObsSeq)),
      (∀ w ∈ ws.map Prod.fst, (s.hwords.lookup w).isSome = true) →
      ∃ v, SelectorDIC.anti env s m ws = Except.ok v
  | [], _ => ⟨(0, 0), rfl⟩
  | (word, sq) :: rest, hk => by
    have hrest : ∀ w ∈ rest.map Prod.fst, (s.hwords.lookup w).isSome = true :=
      fun w hw => hk w (by simp [hw])
    obtain ⟨v, hv⟩ := SelectorDIC.anti_ok env s m rest hrest
    by_cases hw : word = s.this_word
    · exact ⟨v, by simp only [SelectorDIC.anti, if_pos hw, hv]⟩
    · have hlk : (s.hwords.lookup word).isSome = true := hk word (by simp)
      obtain ⟨xl, hxl⟩ := Option.isSome_iff_exists.mp hlk
      cases hs : env.scoreVal m xl with
      | none =>
        exact ⟨v, by simp only [SelectorDIC.anti, if_neg hw, hxl, hs, hv]⟩
      | some q =>
        exact ⟨(v.1 + q, v.2 + 1), by
          simp only [SelectorDIC.anti, if_neg hw, hxl, hs, hv, Except.map]⟩

lemma SelectorDIC.candidate_ok (env : FitEnv) (s : Selector)
    (hk : ∀ w ∈ s.words.map Prod.fst, (s.hwords.lookup w).isSome = true) (k : ℕ) :
    ∃ o, SelectorDIC.candidate env s k = Except.ok o := by
  cases hbm : ModelSelector.base_model env s k with
  | none => exact ⟨none, by simp only [SelectorDIC.candidate, hbm]⟩
  | some m =>
    cases hs : env.scoreVal m (s.X, s.lengths) with
    | none => exact ⟨none, by simp only [SelectorDIC.candidate, hbm, hs]⟩
    | some logL =>
      obtain ⟨v, hv⟩ := SelectorDIC.anti_ok env s m s.words hk
      refine ⟨some (m, if v.2 ≠ 0 then ((logL - v.1 / (v.2 : ℚ) : ℚ) : WithBot ℚ) else ⊥), ?_⟩
      simp only [SelectorDIC.candidate, hbm, hs, hv, Except.map]

lemma dicLoop_spec (env : FitEnv) (s : Selector)
    (hok : ∀ k, ∃ o, SelectorDIC.candidate env s k = Except.ok o) :
    ∀ (l : List ℕ) (best : WithBot ℚ) (bm : Option HModel),
      (SelectorDIC.loop env s best bm l = Except.ok bm ∧
        ∀ k ∈ l, ∀ m d, SelectorDIC.candidate env s k = Except.ok (some (m, d)) →
          d ≤ best)
      ∨ (∃ k0 m0 d0, k0 ∈ l ∧
          SelectorDIC.candidate env s k0 = Except.ok (some (m0, d0)) ∧
          SelectorDIC.loop env s best bm l = Except.ok (some m0) ∧
          best < d0 ∧
          ∀ k ∈ l, ∀ m d, SelectorDIC.candidate env s k = Except.ok (some (m, d)) →
            d ≤ d0)
  | [], best, bm => Or.inl ⟨rfl, by simp⟩
  | k :: rest, best, bm => by
    obtain ⟨o, ho⟩ := hok k
    cases o with
    | none =>
      rcases dicLoop_spec env s hok rest best bm with ⟨h1, h2⟩ |
        ⟨k0, m0, d0, hk0, hc0, hres, hlt0, hbd⟩
      · left
        refine ⟨?_, ?_⟩
        · simp only [SelectorDIC.loop, ho]
          exact h1
        · intro k' hk' m d hcb
          rcases List.mem_cons.mp hk' with rfl | hk'
          · rw [ho] at hcb
            simp at hcb
          · exact h2 k' hk' m d hcb
      · right
        refine ⟨k0, m0, d0, List.mem_cons_of_mem _ hk0, hc0, ?_, hlt0, ?_⟩
        · simp only [SelectorDIC.loop, ho]
          exact hres
        · intro k' hk' m d hcb
          rcases List.mem_cons.mp hk' with rfl | hk'
          · rw [ho] at hcb
            simp at hcb
          · exact hbd k' hk' m d hcb
    | some p =>
      obtain ⟨m, d⟩ := p
      by_cases hlt : best < d
      · rcases dicLoop_spec env s hok rest d (some m) with ⟨h1, h2⟩ |
          ⟨k0, m0, d0, hk0, hc0, hres, hlt0, hbd⟩
        · right
          refine ⟨k, m, d, List.mem_cons_self _ _, ho, ?_, hlt, ?_⟩
          · simp only [SelectorDIC.loop, ho, if_pos hlt]
            exact h1
          · intro k' hk' m' d' hcb
            rcases List.mem_cons.mp hk' with rfl | hk'
            · rw [ho] at hcb
              simp only [Except.ok.injEq, Option.some.injEq, Prod.mk.injEq] at hcb
              exact le_of_eq hcb.2.symm
            · exact h2 k' hk' m' d' hcb
        · right
          refine ⟨k0, m0, d0, List.mem_cons_of_mem _ hk0, hc0, ?_, lt_trans hlt hlt0, ?_⟩
          · simp only [SelectorDIC.loop, ho, if_pos hlt]
            exact hres
          · intro k' hk' m' d' hcb
            rcases List.mem_cons.mp hk' with rfl | hk'
            · rw [ho] at hcb
              simp only [Except.ok.injEq, Option.some.injEq, Prod.mk.injEq] at hcb
              rw [← hcb.2]
              exact le_of_lt hlt0
            · exact hbd k' hk' m' d' hcb
      · rcases dicLoop_spec env s hok rest best bm with ⟨h1, h2⟩ |
          ⟨k0, m0, d0, hk0, hc0, hres, hlt0, hbd⟩
        · left
          refine ⟨?_, ?_⟩
          · simp only [SelectorDIC.loop, ho, if_neg hlt]
            exact h1
          · intro k' hk' m' d' hcb
            rcases List.mem_cons.mp hk' with rfl | hk'
            · rw [ho] at hcb
              simp only [Except.ok.injEq, Option.some.injEq, Prod.mk.injEq] at hcb
              rw [← hcb.2]
              exact not_lt.mp hlt
            · exact h2 k' hk' m' d' hcb
        · right
          refine ⟨k0, m0, d0, List.mem_cons_of_mem _ hk0, hc0, ?_, hlt0, ?_⟩
          · simp only [SelectorDIC.loop, ho, if_neg hlt]
            exact hres
          · intro k' hk' m' d' hcb
            rcases List.mem_cons.mp hk' with rfl | hk'
            · rw [ho] at hcb
              simp only [Except.ok.injEq, Option.some.injEq, Prod.mk.injEq] at hcb
              rw [← hcb.2]
              exact le_of_lt (lt_of_le_of_lt (not_lt.mp hlt) hlt0)
            · exact hbd k' hk' m' d' hcb

/-- The score table the recognizer records for one test item. -/
def scoreTable (env : FitEnv) (models : List (String × HModel)) (obs : Obs) :
    List (String × WithBot ℚ) :=
  models.map (fun wm => (wm.1, scoreOrBot env wm.2 obs))

lemma recognizeLoop_fst (env : FitEnv) (obs : Obs) :
    ∀ (models : List (String × HModel)) (tbl : List (String × WithBot ℚ))
      (best : WithBot ℚ) (bw : String),
      (recognizeLoop env obs tbl best bw models).1 = tbl ++ scoreTable env models obs
  | [], tbl, best, bw => by simp [recognizeLoop, scoreTable]
  | (w, m) :: rest, tbl, best, bw => by
    simp only [recognizeLoop]
    split
    · rw [recognizeLoop_fst env obs rest _ _ _]
      simp [scoreTable]
    · rw [recognizeLoop_fst env obs rest _ _ _]
      simp [scoreTable]

lemma recognizeLoop_best (env : FitEnv) (obs : Obs) :
    ∀ (models : List (String × HModel)) (tbl : List (String × WithBot ℚ))
      (best : WithBot ℚ) (bw : String),
      ((recognizeLoop env obs tbl best bw models).2 = bw ∧
        ∀ wm ∈ models, scoreOrBot env wm.2 obs ≤ best)
      ∨ (∃ pre w0 m0 post, models = pre ++ (w0, m0) :: post ∧
          (recognizeLoop env obs tbl best bw models).2 = w0 ∧
          best < scoreOrBot env m0 obs ∧
          (∀ wm ∈ pre, scoreOrBot env wm.2 obs < scoreOrBot env m0 obs) ∧
          ∀ wm ∈ models, scoreOrBot env wm.2 obs ≤ scoreOrBot env m0 obs)
  | [], tbl, best, bw => Or.inl ⟨rfl, by simp⟩
  | (w, m) :: rest, tbl, best, bw => by
    by_cases hlt : best < scoreOrBot env m obs
    · rcases recognizeLoop_best env obs rest (tbl ++ [(w, scoreOrBot env m obs)])
        (scoreOrBot env m obs) w with ⟨h1, h2⟩ |
        ⟨pre, w0, m0, post, hsplit, hres, hlt0, hpre, hall⟩
      · right
        refine ⟨[], w, m, rest, rfl, ?_, hlt, by simp, ?_⟩
        · simp only [recognizeLoop, if_pos hlt]
          exact h1
        · intro wm hm
          rcases List.mem_cons.mp hm with rfl | hm
          · exact le_refl _
          · exact h2 wm hm
      · right
        refine ⟨(w, m) :: pre, w0, m0, post, by rw [hsplit]; rfl, ?_,
            lt_trans hlt hlt0, ?_, ?_⟩
        · simp only [recognizeLoop, if_pos hlt]
          exact hres
        · intro wm hm
          rcases List.mem_cons.mp hm with rfl | hm
          · exact hlt0
          · exact hpre wm hm
        · intro wm hm
          rcases List.mem_cons.mp hm with rfl | hm
          · exact le_of_lt hlt0
          · exact hall wm (by rw [hsplit] at hm ⊢; exact hm)
    · rcases recognizeLoop_best env obs rest (tbl ++ [(w, scoreOrBot env m obs)])
        best bw with ⟨h1, h2⟩ |
        ⟨pre, w0, m0, post, hsplit, hres, hlt0, hpre, hall⟩
      · left
        refine ⟨?_, ?_⟩
        · simp only [recognizeLoop, if_neg hlt]
          exact h1
        · intro wm hm
          rcases List.mem_cons.mp hm with rfl | hm
          · exact not_lt.mp hlt
          · exact h2 wm hm
      · right
        refine ⟨(w, m) :: pre, w0, m0, post, by rw [hsplit]; rfl, ?_, hlt0, ?_, ?_⟩
        · simp only [recognizeLoop, if_neg hlt]
          exact hres
        · intro wm hm
          rcases List.mem_cons.mp hm with rfl | hm
          · exact lt_of_le_of_lt (not_lt.mp hlt) hlt0
          · exact hpre wm hm
        · intro wm hm
          rcases List.mem_cons.mp hm with rfl | hm
          · exact le_of_lt (lt_of_le_of_lt (not_lt.mp hlt) hlt0)
          · exact hall wm (by rw [hsplit] at hm ⊢; exact hm)

/-- Inversion of a successful BIC candidate: the model was fit by
`base_model(k)` and the BIC value is the source formula. -/
lemma bicCandidate_inv (env : FitEnv) (s : Selector) (k : ℕ) (m : HModel)
    (b : ℚ) (h : SelectorBIC.candidate env s k = some (m, b)) :
    ModelSelector.base_model env s k = some m ∧
      ∃ L, env.scoreVal m (s.X, s.lengths) = some L ∧
        b = -2 * L + (((k : ℤ) ^ 2 + 2 * (k : ℤ) * (env.n_features m : ℤ) - 1 : ℤ) : ℚ) *
          env.log s.lengths.sum := by
  unfold SelectorBIC.candidate at h
  split at h
  · cases h
  next m' hbm =>
    split at h
    · cases h
    next L hsc =>
      simp only [Option.some.injEq, Prod.mk.injEq] at h
      obtain ⟨rfl, rfl⟩ := h
      exact ⟨hbm, L, hsc, rfl⟩

/-- Inversion of a DIC candidate that survives to the comparison. -/
lemma dicCandidate_inv (env : FitEnv) (s : Selector) (k : ℕ) (m : HModel)
    (d : WithBot ℚ) (h : SelectorDIC.candidate env s k = Except.ok (some (m, d))) :
    ModelSelector.base_model env s k = some m ∧
      ∃ L sum num, env.scoreVal m (s.X, s.lengths) = some L ∧
        SelectorDIC.anti env s m s.words = Except.ok (sum, num) ∧
        d = if num ≠ 0 then ((L - sum / (num : ℚ) : ℚ) : WithBot ℚ) else ⊥ := by
  unfold SelectorDIC.candidate at h
  split at h
  · cases h
  next m' hbm =>
    split at h
    · cases h
    next L hsc =>
      cases ha : SelectorDIC.anti env s m' s.words with
      | error e =>
        rw [ha] at h
        cases h
      | ok v =>
        rw [ha] at h
        simp only [Except.map, Except.ok.injEq, Option.some.injEq, Prod.mk.injEq] at h
        obtain ⟨rfl, rfl⟩ := h
        exact ⟨hbm, L, v.1, v.2, hsc, by rw [ha], rfl⟩

/-- When every candidate in the searched list fails, the BIC loop keeps the
initial `best_model`. -/
lemma bicLoop_const (env : FitEnv) (s : Selector) :
    ∀ (l : List ℕ) (best : WithTop ℚ) (bm : Option HModel),
      (∀ k ∈ l, SelectorBIC.candidate env s k = none) →
      SelectorBIC.loop env s best bm l = bm
  | [], _, _, _ => rfl
  | k :: rest, best, bm, h => by
    simp only [SelectorBIC.loop, h k (List.mem_cons_self _ _)]
    exact bicLoop_const env s rest best bm
      (fun k' hk' => h k' (List.mem_cons_of_mem _ hk'))

/-- When every candidate in the searched list is skipped, the DIC loop keeps
the initial `best_model`. -/
lemma dicLoop_const (env : FitEnv) (s : Selector) :
    ∀ (l : List ℕ) (best : WithBot ℚ) (bm : Option HModel),
      (∀ k ∈ l, SelectorDIC.candidate env s k = Except.ok none) →
      SelectorDIC.loop env s best bm l = Except.ok bm
  | [], _, _, _ => rfl
  | k :: rest, best, bm, h => by
    simp only [SelectorDIC.loop, h k (List.mem_cons_self _ _)]
    exact dicLoop_const env s rest best bm
      (fun k' hk' => h k' (List.mem_cons_of_mem _ hk'))

/-- With a fitter that always fails, the CV state-count loop keeps a `None`
best model (every refit produces `None`). -/
lemma SelectorCV.loop_none (env : FitEnv) (hf : ∀ o k r, env.fitOk o k r = false)
    (splits : List (List ℕ × List ℕ)) :
    ∀ (ks : List ℕ) (s : Selector) (best : WithBot ℚ),
      (∀ p ∈ splits, (∀ i ∈ p.1, i < s.sequences.length) ∧
        (∀ i ∈ p.2, i < s.sequences.length)) →
      (SelectorCV.loop env combine_sequences splits s best none ks).1 = Except.ok none
  | [], _, _, _ => rfl
  | k :: rest, s, best, hv => by
    simp only [SelectorCV.loop]
    split
    next s' e heq =>
      obtain ⟨v, hok⟩ := SelectorCV.folds_ok env k splits s 0 0 hv
      rw [heq] at hok
      exact absurd hok (by simp)
    next s' sl nt heq =>
      have hs : s' = s := by
        have h := SelectorCV.folds_fst env combine_sequences k s 0 0 splits
        rw [heq] at h
        exact h
      subst hs
      split
      · have hbm : ModelSelector.base_model env s' k = none := by
          unfold ModelSelector.base_model
          rw [hf]
          rfl
        rw [hbm]
        exact SelectorCV.loop_none env hf splits rest _ _ hv
      · exact SelectorCV.loop_none env hf splits rest _ _ hv

/-- When every fold of one candidate fails (the fold fit yields `None`, or
the held-out score raises), the fold loop leaves the accumulated
`(sum_logL, num_tries)` untouched. -/
lemma SelectorCV.folds_allfail (env : FitEnv) (k : ℕ) :
    ∀ (splits : List (List ℕ × List ℕ)) (s : Selector) (a : ℚ) (c : ℕ),
      (∀ p ∈ splits, (∀ i ∈ p.1, i < s.sequences.length) ∧
        (∀ i ∈ p.2, i < s.sequences.length)) →
      (∀ p ∈ splits, ∀ xtr xte,
        combine_sequences p.1 s.sequences = Except.ok xtr →
        combine_sequences p.2 s.sequences = Except.ok xte →
        ∀ m, ModelSelector.base_model env { s with X := xtr.1, lengths := xtr.2 } k = some m →
          env.scoreVal m xte = none) →
      SelectorCV.folds env combine_sequences k s a c splits = (s, Except.ok (a, c))
  | [], _, _, _, _, _ => rfl
  | (tri, tei) :: rest, s, a, c, hv, hfail => by
    obtain ⟨vtr, htr⟩ :=
      combine_sequences_ok tri s.sequences (hv (tri, tei) (List.mem_cons_self _ _)).1
    obtain ⟨vte, hte⟩ :=
      combine_sequences_ok tei s.sequences (hv (tri, tei) (List.mem_cons_self _ _)).2
    have hvrest : ∀ p ∈ rest, (∀ i ∈ p.1, i < s.sequences.length) ∧
        (∀ i ∈ p.2, i < s.sequences.length) :=
      fun p hp => hv p (List.mem_cons_of_mem _ hp)
    have hfrest : ∀ p ∈ rest, ∀ xtr xte,
        combine_sequences p.1 s.sequences = Except.ok xtr →
        combine_sequences p.2 s.sequences = Except.ok xte →
        ∀ m, ModelSelector.base_model env { s with X := xtr.1, lengths := xtr.2 } k = some m →
          env.scoreVal m xte = none :=
      fun p hp => hfail p (List.mem_cons_of_mem _ hp)
    simp only [SelectorCV.folds, htr, hte]
    split
    · exact SelectorCV.folds_allfail env k rest _ a c hvrest hfrest
    next m hbm =>
      rw [hfail (tri, tei) (List.mem_cons_self _ _) vtr vte htr hte m hbm]
      exact SelectorCV.folds_allfail env k rest _ a c hvrest hfrest

/-- When the fold loop reports no successful fold for any searched state
count, the CV state-count loop keeps its initial `best_model` (the
`float('-inf')` average never beats the `float('-inf')` running best). -/
lemma SelectorCV.loop_nofold (env : FitEnv)
    (combine : List ℕ → List ObsSeq → Except String Obs)
    (splits : List (List ℕ × List ℕ)) :
    ∀ (ks : List ℕ) (s : Selector) (bm : Option HModel),
      (∀ k ∈ ks, SelectorCV.folds env combine k s 0 0 splits = (s, Except.ok (0, 0))) →
      SelectorCV.loop env combine splits s ⊥ bm ks = (Except.ok bm, s)
  | [], _, _, _ => rfl
  | k :: rest, s, bm, h => by
    simp only [SelectorCV.loop, h k (List.mem_cons_self _ _), SelectorCV.avgLogL,
      lt_self_iff_false, if_false]
    exact SelectorCV.loop_nofold env combine splits rest s bm
      (fun k' hk' => h k' (List.mem_cons_of_mem _ hk'))

/-! ### Concrete instances used by witnesses and counterexamples -/

/-- An environment whose fitter always fails. -/
def envNoFit : FitEnv := ⟨fun _ _ _ => false, fun _ _ => none, fun _ => 1, fun _ => 0⟩

/-- An environment whose fitter always succeeds but whose scorer always
raises. -/
def envFitNoScore : FitEnv := ⟨fun _ _ _ => true, fun _ _ => none, fun _ => 1, fun _ => 0⟩

/-- A benign environment: every fit succeeds and every score is `1`. -/
def envUnit : FitEnv := ⟨fun _ _ _ => true, fun _ _ => some 1, fun _ => 1, fun _ => 0⟩

/-- A selector for word `"A"` with three one-frame training sequences and
search range `[2, 3]`. -/
def selA : Selector :=
  { words := [("A", [[[1]], [[2]], [[3]]])],
    hwords := [("A", ([[1], [2], [3]], [1, 1, 1]))],
    sequences := [[[1]], [[2]], [[3]]],
    X := [[1], [2], [3]], lengths := [1, 1, 1],
    this_word := "A", n_constant := 3,
    min_n_components := 2, max_n_components := 3,
    random_state := 14, verbose := false }

/-- A selector whose `words` table has a key `"B"` that is missing from
`hwords`. -/
def selMissing : Selector :=
  { words := [("A", [[[1]]]), ("B", [[[1]]])],
    hwords := [("A", ([[1]], [1]))],
    sequences := [[[1]]],
    X := [[1]], lengths := [1],
    this_word := "A", n_constant := 3,
    min_n_components := 2, max_n_components := 2,
    random_state := 14, verbose := false }

/-- A two-word selector with both words present in `hwords`. -/
def selAB : Selector :=
  { words := [("A", [[[1]]]), ("B", [[[2]]])],
    hwords := [("A", ([[1]], [1])), ("B", ([[2]], [1]))],
    sequences := [[[1]]],
    X := [[1]], lengths := [1],
    this_word := "A", n_constant := 3,
    min_n_components := 2, max_n_components := 2,
    random_state := 14, verbose := false }

/-- A selector with a single training sequence (fewer than the 3 folds). -/
def selSmall : Selector :=
  { words := [("A", [[[1]]])],
    hwords := [("A", ([[1]], [1]))],
    sequences := [[[1]]],
    X := [[1]], lengths := [1],
    this_word := "A", n_constant := 3,
    min_n_components := 2, max_n_components := 3,
    random_state := 14, verbose := false }

/-- A sample fitted model named `"A"` in recognizer tables. -/
def mA : HModel := ⟨[[1]], [1], 2, 14⟩

/-- A second sample fitted model. -/
def mB : HModel := ⟨[[2]], [1], 3, 14⟩

/-- A sample test item. -/
def obsW : Obs := ([[5]], [1])

/-! ### Claim theorems -/

/-- C6: for every vocabulary item whose number of example sequences is
strictly less than the fold count 3, `SelectorCV.select()` returns exactly
the constant-state model `base_model(n_constant)` (with the selector state
untouched) and never invokes the fold-splitting utility: the result is the
same for every fold-combining function `combine`, including one that always
raises. -/
theorem selectorCV_small_sample_fallback (env : FitEnv)
    (combine : List ℕ → List ObsSeq → Except String Obs) (s : Selector)
    (h : s.sequences.length < 3) :
    SelectorCV.select env combine s =
      (Except.ok (ModelSelector.base_model env s s.n_constant), s) := by
  unfold SelectorCV.select
  rw [if_pos h]

/-- Witness for C6 at a concrete selector with one training sequence. -/
theorem selectorCV_small_sample_fallback_witness :
    selSmall.sequences.length < 3 ∧
      SelectorCV.select envUnit (fun _ _ => Except.error "boom") selSmall =
        (Except.ok (ModelSelector.base_model envUnit selSmall selSmall.n_constant),
          selSmall) :=
  ⟨by decide,
   selectorCV_small_sample_fallback envUnit (fun _ _ => Except.error "boom") selSmall
     (by decide)⟩

/-- Concrete evaluation: on `selA` with the benign environment, the CV
selector returns the state-count-2 model fit on the full training view. -/
lemma cv_selA_eval :
    (SelectorCV.select envUnit combine_sequences selA).1 =
      Except.ok (some ⟨[[1], [2], [3]], [1, 1, 1], 2, 14⟩) := by
  norm_num [SelectorCV.select, SelectorCV.loop, SelectorCV.folds, SelectorCV.avgLogL,
    combine_sequences, kf_split, kfPair, ModelSelector.base_model, Selector.stateRange,
    envUnit, selA, List.range, List.range', List.filter, Except.map,
    WithBot.bot_lt_coe, WithBot.coe_lt_coe]
  rw [if_pos (show (⊥ : WithBot ℚ) < 1 from bot_lt_iff_ne_bot.mpr WithBot.one_ne_bot)]

/-- C7: every model `SelectorCV.select()` can return was fit on the item's
entire training set (the selector's full `X` and `lengths`, with its seed),
never on one of the fold-trained intermediate views: the fallback is fit on
the full view, and the winning candidate is refit on the restored full view
after the folds. -/
theorem selectorCV_returns_full_data_model (env : FitEnv)
    (combine : List ℕ → List ObsSeq → Except String Obs) (s : Selector)
    (r : Option HModel) (m : HModel)
    (hr : (SelectorCV.select env combine s).1 = Except.ok r) (hm : r = some m) :
    m.X = s.X ∧ m.lengths = s.lengths ∧ m.seed = s.random_state := by
  unfold SelectorCV.select at hr
  split at hr
  · cases hr
    have h := ModelSelector.base_model_shape env s s.n_constant m hm
    exact ⟨h.1, h.2.1, h.2.2.2⟩
  · refine SelectorCV.loop_models env combine _ s.stateRange s ⊥ _ ?_ r m hr hm
    intro m' hm'
    have h := ModelSelector.base_model_shape env s s.n_constant m' hm'
    exact ⟨h.1, h.2.1, h.2.2.2⟩

/-- Witness for C7: a concrete run returning a model fit on the full data. -/
theorem selectorCV_returns_full_data_model_witness :
    (SelectorCV.select envUnit combine_sequences selA).1 =
        Except.ok (some ⟨[[1], [2], [3]], [1, 1, 1], 2, 14⟩) ∧
      ([[1], [2], [3]] : List Frame) = selA.X ∧
      ([1, 1, 1] : List ℕ) = selA.lengths ∧ (14 : ℕ) = selA.random_state :=
  ⟨cv_selA_eval,
   (selectorCV_returns_full_data_model envUnit combine_sequences selA
      (some ⟨[[1], [2], [3]], [1, 1, 1], 2, 14⟩) ⟨[[1], [2], [3]], [1, 1, 1], 2, 14⟩
      cv_selA_eval rfl).imp id id⟩

/-- C8: `SelectorCV.select()` restores the selector's stored training view:
the selector state after the call equals the state before it, on every path
(fold fit failure, score failure, and even a raising combine call, which can
only happen before the temporary swap). -/
theorem selectorCV_state_restored (env : FitEnv)
    (combine : List ℕ → List ObsSeq → Except String Obs) (s : Selector) :
    (SelectorCV.select env combine s).2 = s := by
  unfold SelectorCV.select
  split
  · rfl
  · exact SelectorCV.loop_snd env combine _ s.stateRange s ⊥ _

/-- C9: with the external fitter a deterministic function of
`(X, lengths, num_states, seed)` (as the embedding fixes by construction),
`select()` is a function of the construction inputs alone: two calls on
identical selector state return identical results for every strategy, and
for `SelectorCV` — the only strategy that mutates state — a second call run
on the state left by a first call returns the first call's result. -/
theorem select_deterministic (env : FitEnv)
    (combine : List ℕ → List ObsSeq → Except String Obs) (s s' : Selector)
    (h : s' = s) :
    SelectorConstant.select env s' = SelectorConstant.select env s ∧
    SelectorBIC.select env s' = SelectorBIC.select env s ∧
    SelectorDIC.select env s' = SelectorDIC.select env s ∧
    (SelectorCV.select env combine s').1 = (SelectorCV.select env combine s).1 ∧
    (SelectorCV.select env combine (SelectorCV.select env combine s).2).1 =
      (SelectorCV.select env combine s).1 := by
  subst h
  refine ⟨rfl, rfl, rfl, rfl, ?_⟩
  have hrestore : ∀ t : Selector, (SelectorCV.select env combine t).2 = t := by
    intro t
    unfold SelectorCV.select
    split
    · rfl
    · exact SelectorCV.loop_snd env combine _ t.stateRange t ⊥ _
  rw [hrestore]

/-- Witness for C9 at a concrete environment and selector. -/
theorem select_deterministic_witness :
    SelectorBIC.select envUnit selA = SelectorBIC.select envUnit selA ∧
      (SelectorCV.select envUnit combine_sequences
          (SelectorCV.select envUnit combine_sequences selA).2).1 =
        (SelectorCV.select envUnit combine_sequences selA).1 :=
  ⟨(select_deterministic envUnit combine_sequences selA selA rfl).2.1,
   (select_deterministic envUnit combine_sequences selA selA rfl).2.2.2.2⟩

/-- C1 counterexample: with a fitter that always fails, `SelectorBIC.select()`
returns the absent result `None`, not a (non-absent) constant-state fallback
model — the fallback `base_model(n_constant)` itself fails to fit. -/
theorem select_absent_when_fitter_fails_cex :
    SelectorBIC.select envNoFit selA = none := by decide

/-- C1 (amended): when every searched candidate fails, each of the four
strategies returns exactly the result of `base_model(n_constant)`; that
fallback is a model only when its own fit succeeds — with a fitter that
always fails, every strategy returns the absent result `None` instead of a
model. Part 1: an always-failing fitter makes every strategy return the
(absent) fallback result. Parts 2 and 3: BIC and DIC return the fallback
when every searched candidate fails to fit or score. Part 4: the constant
selector returns the fallback by definition. Part 5: CV returns the
fallback — non-absent exactly when the fallback fit succeeds — when every
fold of every searched candidate fails to fit or to score its held-out
fold. -/
theorem select_fallback_guarantee :
    (∀ (env : FitEnv) (s : Selector), (∀ o k r, env.fitOk o k r = false) →
      SelectorConstant.select env s = none ∧ SelectorBIC.select env s = none ∧
      SelectorDIC.select env s = Except.ok none ∧
      (SelectorCV.select env combine_sequences s).1 = Except.ok none) ∧
    (∀ (env : FitEnv) (s : Selector),
      (∀ k ∈ s.stateRange, SelectorBIC.candidate env s k = none) →
      SelectorBIC.select env s = ModelSelector.base_model env s s.n_constant) ∧
    (∀ (env : FitEnv) (s : Selector),
      (∀ k ∈ s.stateRange, SelectorDIC.candidate env s k = Except.ok none) →
      SelectorDIC.select env s = Except.ok (ModelSelector.base_model env s s.n_constant)) ∧
    (∀ (env : FitEnv) (s : Selector),
      SelectorConstant.select env s = ModelSelector.base_model env s s.n_constant) ∧
    (∀ (env : FitEnv) (s : Selector),
      (∀ k ∈ s.stateRange, ∀ p ∈ kf_split s.sequences.length, ∀ xtr xte,
        combine_sequences p.1 s.sequences = Except.ok xtr →
        combine_sequences p.2 s.sequences = Except.ok xte →
        ∀ m, ModelSelector.base_model env { s with X := xtr.1, lengths := xtr.2 } k = some m →
          env.scoreVal m xte = none) →
      (SelectorCV.select env combine_sequences s).1 =
        Except.ok (ModelSelector.base_model env s s.n_constant)) := by
  refine ⟨?_, ?_, ?_, fun env s => rfl, ?_⟩
  · intro env s hf
    have hbm : ∀ k, ModelSelector.base_model env s k = none := by
      intro k
      unfold ModelSelector.base_model
      rw [hf]
      rfl
    have hcand : ∀ k ∈ s.stateRange, SelectorBIC.candidate env s k = none := by
      intro k _
      simp [SelectorBIC.candidate, hbm]
    have hcand2 : ∀ k ∈ s.stateRange, SelectorDIC.candidate env s k = Except.ok none := by
      intro k _
      simp [SelectorDIC.candidate, hbm]
    refine ⟨hbm _, ?_, ?_, ?_⟩
    · unfold SelectorBIC.select
      rw [bicLoop_const env s s.stateRange ⊤ _ hcand]
      exact hbm _
    · unfold SelectorDIC.select
      rw [dicLoop_const env s s.stateRange ⊥ _ hcand2]
      rw [hbm]
    · unfold SelectorCV.select
      rw [hbm]
      split
      · rfl
      next h =>
        exact SelectorCV.loop_none env hf (kf_split s.sequences.length) s.stateRange s ⊥
          (kf_split_valid _ (not_lt.mp h))
  · intro env s hall
    unfold SelectorBIC.select
    exact bicLoop_const env s s.stateRange ⊤ _ hall
  · intro env s hall
    unfold SelectorDIC.select
    exact dicLoop_const env s s.stateRange ⊥ _ hall
  · intro env s hfold
    unfold SelectorCV.select
    split
    · rfl
    next h =>
      have hv := kf_split_valid s.sequences.length (not_lt.mp h)
      have hfolds : ∀ k ∈ s.stateRange,
          SelectorCV.folds env combine_sequences k s 0 0 (kf_split s.sequences.length) =
            (s, Except.ok (0, 0)) :=
        fun k hk => SelectorCV.folds_allfail env k _ s 0 0 hv (hfold k hk)
      rw [SelectorCV.loop_nofold env combine_sequences _ s.stateRange s _ hfolds]

/-- Witness for C1: a concrete always-failing fitter (every strategy returns
the absent fallback result), and a concrete fitter that fits everything but
never scores (`SelectorCV` returns the non-absent constant-state fallback
model even though every fold of every searched candidate fails). -/
theorem select_fallback_guarantee_witness :
    (SelectorConstant.select envNoFit selA = none ∧
      SelectorBIC.select envNoFit selA = none ∧
      SelectorDIC.select envNoFit selA = Except.ok none ∧
      (SelectorCV.select envNoFit combine_sequences selA).1 = Except.ok none) ∧
    (SelectorCV.select envFitNoScore combine_sequences selA).1 =
      Except.ok (ModelSelector.base_model envFitNoScore selA selA.n_constant) ∧
    ModelSelector.base_model envFitNoScore selA selA.n_constant =
      some ⟨[[1], [2], [3]], [1, 1, 1], 3, 14⟩ :=
  ⟨select_fallback_guarantee.1 envNoFit selA (fun _ _ _ => rfl),
   select_fallback_guarantee.2.2.2.2 envFitNoScore selA
     (fun _ _ _ _ _ _ _ _ _ _ => rfl),
   by decide⟩

/-- C2 counterexample: `SelectorDIC.select()` raises an uncaught `KeyError`
when a word of `self.words` is missing from `self.hwords` (the dict lookup
at the top of the anti-likelihood loop is outside the `try` block). -/
theorem selectorDIC_keyerror_cex :
    SelectorDIC.select envUnit selMissing = Except.error "KeyError" := by rfl

/-- C2 (amended): for every input whose word table keys all appear in the
Xlengths table (as the training-data contract guarantees), `SelectorDIC.select()`
and `SelectorCV.select()` return without raising — every fit or score failure
is caught and skipped. (`SelectorConstant.select`, `SelectorBIC.select` and
`recognize` are total by construction: every exception site in their sources
sits inside a `try/except`.) -/
theorem select_no_uncaught_raise (env : FitEnv) (s : Selector)
    (hk : ∀ w ∈ s.words.map Prod.fst, (s.hwords.lookup w).isSome = true) :
    (∃ r, SelectorDIC.select env s = Except.ok r) ∧
    (∃ r, (SelectorCV.select env combine_sequences s).1 = Except.ok r) := by
  constructor
  · have hok := SelectorDIC.candidate_ok env s hk
    unfold SelectorDIC.select
    rcases dicLoop_spec env s hok s.stateRange ⊥
        (ModelSelector.base_model env s s.n_constant) with ⟨h1, _⟩ |
      ⟨k0, m0, d0, _, _, hres, _, _⟩
    · exact ⟨_, h1⟩
    · exact ⟨_, hres⟩
  · unfold SelectorCV.select
    split
    · exact ⟨_, rfl⟩
    next h =>
      exact SelectorCV.loop_ok env _ s.stateRange s ⊥ _ (kf_split_valid _ (not_lt.mp h))

/-- Witness for C2 at a concrete well-keyed selector. -/
theorem select_no_uncaught_raise_witness :
    (∃ r, SelectorDIC.select envUnit selA = Except.ok r) ∧
      (∃ r, (SelectorCV.select envUnit combine_sequences selA).1 = Except.ok r) :=
  select_no_uncaught_raise envUnit selA (by decide)

/-- C3: whenever some state count in the search range both fits and scores,
`SelectorBIC.select()` returns a searched candidate achieving the minimum of
`BIC(k) = -2*L + p*log N` (with `p = k^2 + 2*k*d - 1`, `N = sum(lengths)`)
over all candidates that fit and score; its state count is the argmin (ties
to the smallest state count, by the strict comparison). -/
theorem selectorBIC_argmin (env : FitEnv) (s : Selector)
    (hex : ∃ k ∈ s.stateRange, (SelectorBIC.candidate env s k).isSome = true) :
    ∃ k0 m0 b0 L0, k0 ∈ s.stateRange ∧
      SelectorBIC.candidate env s k0 = some (m0, b0) ∧
      SelectorBIC.select env s = some m0 ∧
      m0.numStates = k0 ∧
      env.scoreVal m0 (s.X, s.lengths) = some L0 ∧
      b0 = -2 * L0 + (((k0 : ℤ) ^ 2 + 2 * (k0 : ℤ) * (env.n_features m0 : ℤ) - 1 : ℤ) : ℚ) *
        env.log s.lengths.sum ∧
      ∀ k ∈ s.stateRange, ∀ m b, SelectorBIC.candidate env s k = some (m, b) → b0 ≤ b := by
  obtain ⟨k1, hk1, hs1⟩ := hex
  obtain ⟨⟨m1, b1⟩, hc1⟩ := Option.isSome_iff_exists.mp hs1
  rcases bicLoop_spec env s s.stateRange ⊤
      (ModelSelector.base_model env s s.n_constant) with ⟨h1, h2⟩ |
    ⟨k0, m0, b0, hk0, hc0, hres, hlt, hbd⟩
  · exact absurd (h2 k1 hk1 m1 b1 hc1) (WithTop.not_top_le_coe b1)
  · obtain ⟨hbm, L0, hsc, hb⟩ := bicCandidate_inv env s k0 m0 b0 hc0
    exact ⟨k0, m0, b0, L0, hk0, hc0, hres,
      (ModelSelector.base_model_shape env s k0 m0 hbm).2.2.1, hsc, hb, hbd⟩

/-- Witness for C3 at a concrete environment in which every candidate fits
and scores. -/
theorem selectorBIC_argmin_witness :
    ∃ k0 m0 b0 L0, k0 ∈ selA.stateRange ∧
      SelectorBIC.candidate envUnit selA k0 = some (m0, b0) ∧
      SelectorBIC.select envUnit selA = some m0 ∧
      m0.numStates = k0 ∧
      envUnit.scoreVal m0 (selA.X, selA.lengths) = some L0 ∧
      b0 = -2 * L0 +
        (((k0 : ℤ) ^ 2 + 2 * (k0 : ℤ) * (envUnit.n_features m0 : ℤ) - 1 : ℤ) : ℚ) *
          envUnit.log selA.lengths.sum ∧
      ∀ k ∈ selA.stateRange, ∀ m b,
        SelectorBIC.candidate envUnit selA k = some (m, b) → b0 ≤ b :=
  selectorBIC_argmin envUnit selA ⟨2, by decide, by decide⟩

/-- Concrete evaluation of one DIC candidate on the two-word selector. -/
lemma dic_selAB_cand :
    SelectorDIC.candidate envUnit selAB 2 =
      Except.ok (some (⟨[[1]], [1], 2, 14⟩, ((0 : ℚ) : WithBot ℚ))) := by
  simp only [SelectorDIC.candidate, SelectorDIC.anti, ModelSelector.base_model,
    envUnit, selAB, Except.map, List.lookup]
  simp only [String.reduceEq, String.reduceBEq, if_false, if_true, Bool.false_eq_true,
    ite_false, ite_true]
  norm_num

/-- C4: whenever some searched candidate fits, scores on its own word, and
scores on at least one other word (finite DIC), `SelectorDIC.select()`
returns a searched candidate achieving the maximum of
`DIC(k) = L - mean(anti-log-likelihoods)` (items whose scoring fails are
excluded from the mean; a candidate with no successful cross-item score gets
the `-inf` sentinel, is never the winner here, and bounds below the
winner). -/
theorem selectorDIC_argmax (env : FitEnv) (s : Selector)
    (hk : ∀ w ∈ s.words.map Prod.fst, (s.hwords.lookup w).isSome = true)
    (hex : ∃ k ∈ s.stateRange, ∃ m d,
      SelectorDIC.candidate env s k = Except.ok (some (m, d)) ∧ d ≠ ⊥) :
    ∃ k0 m0 d0, k0 ∈ s.stateRange ∧
      SelectorDIC.candidate env s k0 = Except.ok (some (m0, d0)) ∧
      d0 ≠ ⊥ ∧
      SelectorDIC.select env s = Except.ok (some m0) ∧
      m0.numStates = k0 ∧
      (∃ L0 sum num, env.scoreVal m0 (s.X, s.lengths) = some L0 ∧
        SelectorDIC.anti env s m0 s.words = Except.ok (sum, num) ∧
        d0 = if num ≠ 0 then ((L0 - sum / (num : ℚ) : ℚ) : WithBot ℚ) else ⊥) ∧
      ∀ k ∈ s.stateRange, ∀ m d,
        SelectorDIC.candidate env s k = Except.ok (some (m, d)) → d ≤ d0 := by
  obtain ⟨k1, hk1, m1, d1, hc1, hd1⟩ := hex
  have hok := SelectorDIC.candidate_ok env s hk
  rcases dicLoop_spec env s hok s.stateRange ⊥
      (ModelSelector.base_model env s s.n_constant) with ⟨h1, h2⟩ |
    ⟨k0, m0, d0, hk0, hc0, hres, hlt, hbd⟩
  · exact absurd (le_bot_iff.mp (h2 k1 hk1 m1 d1 hc1)) hd1
  · obtain ⟨hbm, L0, sum, num, hsc, ha, hd⟩ := dicCandidate_inv env s k0 m0 d0 hc0
    exact ⟨k0, m0, d0, hk0, hc0, ne_bot_of_gt hlt, hres,
      (ModelSelector.base_model_shape env s k0 m0 hbm).2.2.1,
      ⟨L0, sum, num, hsc, ha, hd⟩, hbd⟩

/-- Witness for C4 at a concrete two-word vocabulary. -/
theorem selectorDIC_argmax_witness :
    ∃ k0 m0 d0, k0 ∈ selAB.stateRange ∧
      SelectorDIC.candidate envUnit selAB k0 = Except.ok (some (m0, d0)) ∧
      d0 ≠ ⊥ ∧
      SelectorDIC.select envUnit selAB = Except.ok (some m0) ∧
      m0.numStates = k0 ∧
      (∃ L0 sum num, envUnit.scoreVal m0 (selAB.X, selAB.lengths) = some L0 ∧
        SelectorDIC.anti envUnit selAB m0 selAB.words = Except.ok (sum, num) ∧
        d0 = if num ≠ 0 then ((L0 - sum / (num : ℚ) : ℚ) : WithBot ℚ) else ⊥) ∧
      ∀ k ∈ selAB.stateRange, ∀ m d,
        SelectorDIC.candidate envUnit selAB k = Except.ok (some (m, d)) → d ≤ d0 :=
  selectorDIC_argmax envUnit selAB (by decide)
    ⟨2, by decide, ⟨[[1]], [1], 2, 14⟩, ((0 : ℚ) : WithBot ℚ), dic_selAB_cand,
      WithBot.coe_ne_bot⟩

/-- C5 counterexample: when every model fails to score a test sequence, the
guess is the empty string, not the vocabulary item achieving the (all `-inf`)
maximum of the score table — here `"A"` attains the maximum recorded score
but the guess is `""`. -/
theorem recognize_allbot_guess_cex :
    (recognize envNoFit [("A", mA)] [obsW]).1 = [[("A", (⊥ : WithBot ℚ))]] ∧
      (recognize envNoFit [("A", mA)] [obsW]).2 = [""] ∧ ("" : String) ≠ "A" :=
  ⟨rfl, rfl, by decide⟩

/-- C5 (amended): the two outputs of `recognize` are parallel to the test
set: the score tables record every model's score (or the `-inf` sentinel) in
table iteration order; and for a test sequence on which at least one model
scores successfully, the guess is the item with maximum recorded score, ties
broken by the first item encountered (every earlier item scores strictly
lower). When every model fails on a sequence the guess is `""` instead
(see C10). -/
theorem recognize_scores_and_argmax (env : FitEnv) (models : List (String × HModel))
    (test_set : List Obs) :
    (recognize env models test_set).1 = test_set.map (scoreTable env models) ∧
    (recognize env models test_set).2 =
      test_set.map (fun obs => (recognizeOne env models obs).2) ∧
    ∀ obs, (∃ wm ∈ models, scoreOrBot env wm.2 obs ≠ ⊥) →
      ∃ pre w0 m0 post, models = pre ++ (w0, m0) :: post ∧
        (recognizeOne env models obs).2 = w0 ∧
        (∀ wm ∈ pre, scoreOrBot env wm.2 obs < scoreOrBot env m0 obs) ∧
        ∀ wm ∈ models, scoreOrBot env wm.2 obs ≤ scoreOrBot env m0 obs := by
  refine ⟨?_, rfl, ?_⟩
  · unfold recognize
    have hfun : (fun obs => (recognizeOne env models obs).1) = scoreTable env models := by
      funext obs
      have h := recognizeLoop_fst env obs models [] ⊥ ""
      simpa [recognizeOne] using h
    rw [hfun]
  · intro obs hex
    obtain ⟨wm1, hmem1, hne1⟩ := hex
    rcases recognizeLoop_best env obs models [] ⊥ "" with ⟨h1, h2⟩ |
      ⟨pre, w0, m0, post, hsplit, hres, hlt0, hpre, hall⟩
    · exact absurd (le_bot_iff.mp (h2 wm1 hmem1)) hne1
    · exact ⟨pre, w0, m0, post, hsplit, hres, hpre, hall⟩

/-- Witness for C5 on a two-model table where both models score. -/
theorem recognize_scores_and_argmax_witness :
    ∃ pre w0 m0 post, [("A", mA), ("B", mB)] = pre ++ (w0, m0) :: post ∧
      (recognizeOne envUnit [("A", mA), ("B", mB)] obsW).2 = w0 ∧
      (∀ wm ∈ pre, scoreOrBot envUnit wm.2 obsW < scoreOrBot envUnit m0 obsW) ∧
      ∀ wm ∈ [("A", mA), ("B", mB)],
        scoreOrBot envUnit wm.2 obsW ≤ scoreOrBot envUnit m0 obsW :=
  (recognize_scores_and_argmax envUnit [("A", mA), ("B", mB)] [obsW]).2.2 obsW
    ⟨("A", mA), by decide, by decide⟩

/-- C10: for a test sequence on which every model in the table fails to
score (all recorded scores are the `-inf` sentinel) — in particular when the
model table is empty — the emitted guess is the empty string, which is not
any vocabulary item's name (when item names are nonempty). -/
theorem recognize_allfail_empty_guess (env : FitEnv)
    (models : List (String × HModel)) (obs : Obs)
    (h : ∀ wm ∈ models, scoreOrBot env wm.2 obs = ⊥) :
    (recognizeOne env models obs).2 = "" ∧
    (∀ test_set, (recognize env models test_set).2 =
      test_set.map (fun o => (recognizeOne env models o).2)) ∧
    ((∀ wm ∈ models, wm.1 ≠ "") →
      (recognizeOne env models obs).2 ∉ models.map Prod.fst) := by
  have hguess : (recognizeOne env models obs).2 = "" := by
    rcases recognizeLoop_best env obs models [] ⊥ "" with ⟨h1, _⟩ |
      ⟨pre, w0, m0, post, hsplit, hres, hlt0, hpre, hall⟩
    · exact h1
    · have hmem : (w0, m0) ∈ models := by
        rw [hsplit]
        exact List.mem_append_right _ (List.mem_cons_self _ _)
      rw [h (w0, m0) hmem] at hlt0
      exact absurd hlt0 (lt_irrefl ⊥)
  refine ⟨hguess, fun _ => rfl, ?_⟩
  intro hne hmem
  rw [hguess] at hmem
  obtain ⟨wm, hwm, hfst⟩ := List.mem_map.mp hmem
  exact hne wm hwm hfst

/-- Witness for C10 at a one-model table that always fails to score. -/
theorem recognize_allfail_empty_guess_witness :
    (recognizeOne envNoFit [("A", mA)] obsW).2 = "" ∧
      (recognizeOne envNoFit [("A", mA)] obsW).2 ∉ ([("A", mA)].map Prod.fst) :=
  have h := recognize_allfail_empty_guess envNoFit [("A", mA)] obsW (by decide)
  ⟨h.1, h.2.2 (by decide)⟩
